import Mathlib

/-
  Verification of the linkpatrol crawl-and-validate core.

  Shallow embedding of the Go sources:
    - internal/cache/resultsCache.go   (result store: TryClaim / DoLoop / HasFailures)
    - internal/walker/walker.go        (Walk, processFoundUrl, IsSameDomain, bannedPaths)
    - internal/tester (tester.go)      (Test, PingUrlWithFallback, PingUrl, checkFragmentOnPage)
    - internal/workers/workers.go      (GetDomainLimiter, IsIdle, WaitAndClose, SendURLs)

  Machine strings are modelled as Lean `String` and processed on the underlying
  `List Char` with structural recursion, mirroring Go's byte-wise string
  functions (all inputs considered here are ASCII, where bytes and chars agree).
-/

/-! ### Go string primitives (strings.Contains, strings.Replace, strings.LastIndex, ...) -/

/-- Go `strings.Contains` on char lists: `pat` occurs as a contiguous sublist of `hay`. -/
def listHasSub (hay pat : List Char) : Bool :=
  match hay with
  | [] => pat.isEmpty
  | _ :: rest => pat.isPrefixOf hay || listHasSub rest pat

/-- Go `strings.Contains(hay, pat)`. -/
def goContains (hay pat : String) : Bool :=
  listHasSub hay.data pat.data

/-- Index of the first occurrence of `pat` in `hay`, Go `strings.Index`. -/
def listIdxOfSub (hay pat : List Char) : Option Nat :=
  match hay with
  | [] => if pat.isEmpty then some 0 else none
  | _ :: rest =>
    if pat.isPrefixOf hay then some 0
    else (listIdxOfSub rest pat).map (· + 1)

/-- Go `strings.LastIndex(s, c)` for a single character, as an option. -/
def lastIdxOfChar (cs : List Char) (c : Char) : Option Nat :=
  match cs with
  | [] => none
  | a :: rest =>
    match lastIdxOfChar rest c with
    | some i => some (i + 1)
    | none => if a = c then some 0 else none

/-- Go `strings.Replace(s, old, new, 1)`: replace the first occurrence only. -/
def replaceFirst (s old new : String) : String :=
  match listIdxOfSub s.data old.data with
  | none => s
  | some i => String.mk (s.data.take i ++ new.data ++ s.data.drop (i + old.data.length))

/-- Go `strings.HasPrefix`. -/
def goStarts (s pat : String) : Bool :=
  pat.data.isPrefixOf s.data

/-- Go `strings.HasSuffix`. -/
def goEnds (s pat : String) : Bool :=
  pat.data.isSuffixOf s.data

/-- Go `strings.TrimPrefix`. -/
def goTrimLead (s pat : String) : String :=
  if goStarts s pat then String.mk (s.data.drop pat.data.length) else s

/-- Split a char list on a separator character, Go `strings.Split` with a
one-char separator (always returns at least one piece). -/
def listSplitOnChar (cs : List Char) (sep : Char) : List (List Char) :=
  match cs with
  | [] => [[]]
  | a :: rest =>
    let tl := listSplitOnChar rest sep
    if a = sep then [] :: tl
    else
      match tl with
      | [] => [[a]]
      | h :: t => (a :: h) :: t

/-- Split a char list at the first occurrence of `sep`: `(before, after)`;
`after = []` and `before = cs` when `sep` does not occur.  Mirrors Go
`strings.Cut` as used by `net/url` to strip the fragment / query. -/
def listSplitFirst (cs : List Char) (sep : Char) : List Char × List Char :=
  match cs with
  | [] => ([], [])
  | a :: rest =>
    if a = sep then ([], rest)
    else (a :: (listSplitFirst rest sep).fst, (listSplitFirst rest sep).snd)

/-- Take characters up to (excluding) the first occurrence of `sep`. -/
def listTakeUntil (cs : List Char) (sep : Char) : List Char :=
  (listSplitFirst cs sep).fst

/-- ASCII lower-casing of a char list (Go `strings.ToLower` on ASCII). -/
def listLower (cs : List Char) : List Char :=
  cs.map Char.toLower

/-! ### Result store — internal/cache/resultsCache.go -/

/-- `CacheEntryStatus` from resultsCache.go: `Live | Timeout | Dead | Bot | Ignore`. -/
inductive CacheEntryStatus where
  | Live
  | Timeout
  | Dead
  | Bot
  | Ignore
deriving Repr, DecidableEq

/-- `CacheEntry` from resultsCache.go. -/
structure CacheEntry where
  URL : String
  Status : CacheEntryStatus
  Error : String
deriving Repr, DecidableEq

/-- The mutable state of `ResultsCache`: the result map `ResultsData` (modelled
as an association list with at most one binding per key, newest first) and the
claimed-set `ClaimedURLs` (modelled as a list with membership semantics).
Each Go method runs under the single `ResultsMutex`, so each operation below is
one atomic state transition. -/
structure CacheState where
  ResultsData : List (String × CacheEntry)
  ClaimedURLs : List String
deriving Repr, DecidableEq

def emptyCache : CacheState := ⟨[], []⟩

/-- Membership of `url` in the result map (`_, ok := c.ResultsData[url]`). -/
def HasResult (st : CacheState) (url : String) : Bool :=
  st.ResultsData.any (fun p => p.fst = url)

/-- `c.ResultsData[url]` as an option (Go returns the zero value on a miss). -/
def GetResult (st : CacheState) (url : String) : Option CacheEntry :=
  (st.ResultsData.find? (fun p => p.fst = url)).map Prod.snd

/-- Membership of `url` in the claimed-set. -/
def IsClaimed (st : CacheState) (url : String) : Bool :=
  st.ClaimedURLs.any (fun u => u = url)

/-- `TryClaim` from resultsCache.go: under the write lock, fail if the URL is
already in the result map, fail if already claimed, else insert into the
claimed-set and succeed.  Returns the Go boolean together with the new state. -/
def TryClaim (st : CacheState) (url : String) : Bool × CacheState :=
  if HasResult st url then (false, st)
  else if IsClaimed st url then (false, st)
  else (true, { st with ClaimedURLs := url :: st.ClaimedURLs })

/-- The body of the `DoLoop` consumer for one received result: map insert
(`c.ResultsData[result.URL] = result`, an overwrite) and
`delete(c.ClaimedURLs, result.URL)`, performed in one critical section. -/
def putEntry (st : CacheState) (e : CacheEntry) : CacheState :=
  { ResultsData := (e.URL, e) :: st.ResultsData.filter (fun p => !(p.fst = e.URL : Bool)),
    ClaimedURLs := st.ClaimedURLs.filter (fun u => !(u = e.URL : Bool)) }

/-- `HasFailures` from resultsCache.go: some stored result is Dead or Timeout. -/
def HasFailures (st : CacheState) : Bool :=
  st.ResultsData.any (fun p => p.snd.Status = CacheEntryStatus.Dead
    || p.snd.Status = CacheEntryStatus.Timeout)

/-- `GetFailureCount` from resultsCache.go: `(deadCount, timeoutCount)`. -/
def GetFailureCount (st : CacheState) : Nat × Nat :=
  (st.ResultsData.countP (fun p => p.snd.Status = CacheEntryStatus.Dead),
   st.ResultsData.countP (fun p => p.snd.Status = CacheEntryStatus.Timeout))

/-- `runNormalMode` in internal/app/app.go returns an error (a nonzero process
exit code) exactly when `HasFailures` holds on the final store. -/
def exitNonzero (st : CacheState) : Bool :=
  HasFailures st

/-- One serialized operation on the store: a `TryClaim` from a walker, or a
`put` performed by the `DoLoop` consumer. -/
inductive CacheOp where
  | tryClaimOp (url : String)
  | putOp (e : CacheEntry)
deriving Repr, DecidableEq

def applyOp (st : CacheState) : CacheOp → CacheState
  | CacheOp.tryClaimOp url => (TryClaim st url).snd
  | CacheOp.putOp e => putEntry st e

def runOps (ops : List CacheOp) : CacheState :=
  ops.foldl applyOp emptyCache

/-- The mutual-exclusion invariant: no URL is both claimed and resolved. -/
def exclusiveState (st : CacheState) : Bool :=
  st.ClaimedURLs.all (fun u => !(HasResult st u))

/-! ### Model of Go `net/url` parsing

The walker and tester call `url.Parse`, `URL.ResolveReference` and
`URL.String` from Go's standard library.  The model below follows the library
source for the fields the program reads (`Scheme`, `Opaque`, `Host`, `Path`):
the fragment is split off at the first `#`, the scheme is scanned per
`getScheme` (lower-cased on success, error when the string starts with `:`),
an authority is parsed after `//`, and the userinfo before the last `@` is
dropped from the host.  Percent-escaping, userinfo validation, port
validation, query inheritance and dot-segment normalisation in
`ResolveReference` are not modelled; no claim below depends on them. -/

structure GoUrl where
  scheme : String
  oq : String
  host : String
  path : String
  frag : String
deriving Repr, DecidableEq

def isSchemeTailChar (c : Char) : Bool :=
  c.isAlpha || c.isDigit || c = '+' || c = '-' || c = '.'

inductive SchemeScanRes where
  | errRes
  | noScheme
  | found (scheme rest : List Char)
deriving Repr, DecidableEq

/-- `getScheme` from net/url: scan for `scheme:`; error when the colon comes
first; no scheme when an invalid character appears before any colon. -/
def getSchemeGo : List Char → List Char → SchemeScanRes
  | [], _ => SchemeScanRes.noScheme
  | c :: rest, acc =>
    if c = ':' then
      if acc.isEmpty then SchemeScanRes.errRes else SchemeScanRes.found acc.reverse rest
    else if acc.isEmpty then
      if c.isAlpha then getSchemeGo rest [c] else SchemeScanRes.noScheme
    else if isSchemeTailChar c then getSchemeGo rest (c :: acc)
    else SchemeScanRes.noScheme

/-- Authority splits from the rest at the first `/`; the remainder keeps it. -/
def spanToSlash (cs : List Char) : List Char × List Char :=
  match cs with
  | [] => ([], [])
  | c :: rest =>
    if c = '/' then ([], c :: rest)
    else (c :: (spanToSlash rest).fst, (spanToSlash rest).snd)

/-- Host part of an authority: drop the userinfo before the last `@`
(Go keeps any port inside `Host`). -/
def hostOfAuthority (auth : List Char) : List Char :=
  match lastIdxOfChar auth '@' with
  | some i => auth.drop (i + 1)
  | none => auth

/-- The body of `url.Parse` after the scheme has been removed: strip the query,
classify into the opaque / authority / path-only shapes. -/
def parseRest (scheme : String) (rest0 frag : List Char) : GoUrl :=
  let rest := listTakeUntil rest0 '?'
  if scheme ≠ "" ∧ ¬ (['/'].isPrefixOf rest) then
    { scheme := scheme, oq := String.mk rest, host := "", path := "", frag := String.mk frag }
  else if ['/', '/'].isPrefixOf rest ∧ ¬ (scheme = "" ∧ ['/', '/', '/'].isPrefixOf rest) then
    { scheme := scheme, oq := "",
      host := String.mk (hostOfAuthority (spanToSlash (rest.drop 2)).fst),
      path := String.mk (spanToSlash (rest.drop 2)).snd, frag := String.mk frag }
  else
    { scheme := scheme, oq := "", host := "", path := String.mk rest, frag := String.mk frag }

/-- `url.Parse`.  `none` models the parse error for a leading colon; the other
(rare) error cases of the library are not modelled. -/
def goUrlParse (s : String) : Option GoUrl :=
  let pieces := listSplitFirst s.data '#'
  match getSchemeGo pieces.fst [] with
  | SchemeScanRes.errRes => none
  | SchemeScanRes.noScheme => some (parseRest "" pieces.fst pieces.snd)
  | SchemeScanRes.found sch rest => some (parseRest (String.mk (listLower sch)) rest pieces.snd)

/-- Go `resolvePath(base, ref)` without dot-segment normalisation: an empty ref
keeps the base path, an absolute ref replaces it, a relative ref is appended
after the last `/` of the base path. -/
def resolvePathGo (base ref : List Char) : List Char :=
  if ref.isEmpty then base
  else if ['/'].isPrefixOf ref then ref
  else
    (match lastIdxOfChar base '/' with
     | some i => base.take (i + 1)
     | none => []) ++ ref

/-- `URL.ResolveReference` for the fields the program reads. -/
def resolveReference (base ref : GoUrl) : GoUrl :=
  let scheme := if ref.scheme = "" then base.scheme else ref.scheme
  if ref.scheme ≠ "" ∨ ref.host ≠ "" then
    { ref with scheme := scheme, path := String.mk (resolvePathGo ref.path.data []) }
  else if ref.oq ≠ "" then
    { ref with scheme := scheme, host := "", path := "" }
  else
    { scheme := scheme, oq := "", host := base.host,
      path := String.mk (resolvePathGo base.path.data ref.path.data), frag := ref.frag }

/-- `URL.String` for the modelled fields. -/
def GoUrl.render (u : GoUrl) : String :=
  String.mk
    ((if u.scheme ≠ "" then u.scheme.data ++ [':'] else []) ++
     (if u.oq ≠ "" then u.oq.data
      else
        (if (u.scheme ≠ "" ∨ u.host ≠ "") ∧ (u.host ≠ "" ∨ u.path ≠ "") then
          ['/', '/'] ++ u.host.data
         else []) ++
        (if u.path ≠ "" ∧ ¬ (['/'].isPrefixOf u.path.data) ∧ u.host ≠ "" then ['/'] else []) ++
        u.path.data) ++
     (if u.frag ≠ "" then '#' :: u.frag.data else []))

/-! ### Tester — internal/tester (Test, PingUrl, PingUrlWithFallback,
checkFragmentOnPage)

HTTP traffic is an oracle `net : String → PingResult`: for each requested URL
the network either fails the round trip (`client.Do` error, carrying whether
the error is a timeout) or delivers a response status.  Responses additionally
carry a body where the body is read (`checkFragmentOnPage`). -/

inductive PingResult where
  | transportErr (timeout : Bool) (msg : String)
  | response (status : Nat)
deriving Repr, DecidableEq

/-- The error value returned by `PingUrl`: the Go code distinguishes only
whether `isTimeoutError` reports a timeout (true only for a `*url.Error` whose
cause is a timeout; the synthetic `HTTP n` error for statuses ≥ 400 never is),
plus the message text. -/
structure PingError where
  isTimeout : Bool
  httpStatus : Option Nat
  msg : String
deriving Repr, DecidableEq

/-- `isTimeoutError` from tester.go. -/
def isTimeoutError (e : PingError) : Bool :=
  e.isTimeout

/-- `PingUrl` from tester.go: parse failure returns the parse error; otherwise
issue the GET; a transport error is returned as-is; a response with status
≥ 400 becomes the `&url.Error{Err: fmt.Errorf("HTTP %d", status)}` error
(never a timeout); any other status is success (`nil`).  Rate-limiter waiting
is modelled separately (`GetDomainLimiter` below) and cannot fail here. -/
def PingUrl (net : String → PingResult) (path : String) : Option PingError :=
  match goUrlParse path with
  | none => some { isTimeout := false, httpStatus := none, msg := "parse error" }
  | some _ =>
    match net path with
    | PingResult.transportErr tmo m => some { isTimeout := tmo, httpStatus := none, msg := m }
    | PingResult.response st =>
      if st ≥ 400 then
        some { isTimeout := false, httpStatus := some st, msg := "HTTP " ++ toString st }
      else none

/-- The tester's check `parseErr == nil && parsed.Scheme == "https"`. -/
def isHttpsUrl (path : String) : Bool :=
  match goUrlParse path with
  | some u => u.scheme = "https"
  | none => false

/-- `PingUrlWithFallback` from tester.go. -/
def PingUrlWithFallback (net : String → PingResult) (path : String) :
    String × Option PingError :=
  match PingUrl net path with
  | none => (path, none)
  | some err =>
    if isHttpsUrl path then
      match PingUrl net (replaceFirst path "https://" "http://") with
      | none => (replaceFirst path "https://" "http://", none)
      | some _ => (path, some err)
    else (path, some err)

/-- The list of URLs `PingUrlWithFallback` actually pings, in order. -/
def pingAttempts (net : String → PingResult) (path : String) : List String :=
  match PingUrl net path with
  | none => [path]
  | some _ =>
    if isHttpsUrl path then [path, replaceFirst path "https://" "http://"]
    else [path]

/-- The tail of `Tester.Test`: classify the outcome of `PingUrlWithFallback`
into the published `CacheEntry` (Timeout when `isTimeoutError`, else Dead;
Live on success), keyed by the final URL. -/
def classifyOutcome (r : String × Option PingError) : CacheEntry :=
  match r.snd with
  | none => { URL := r.fst, Status := CacheEntryStatus.Live, Error := "" }
  | some e =>
    if isTimeoutError e then { URL := r.fst, Status := CacheEntryStatus.Timeout, Error := e.msg }
    else { URL := r.fst, Status := CacheEntryStatus.Dead, Error := e.msg }

/-- The entry `Tester.Test` publishes for a (non-fragment, already resolved)
URL that is not yet in the store. -/
def testerEntry (net : String → PingResult) (resolvedURL : String) : CacheEntry :=
  classifyOutcome (PingUrlWithFallback net resolvedURL)

/-- The apostrophe character, used in the `id=...` patterns of
`checkFragmentOnPage`. -/
def apos : String := String.mk [Char.ofNat 39]

/-- How `checkFragmentOnPage` sees the fetch of the base page: a `client.Get`
error, a readable response, or a response whose body read fails. -/
inductive FetchResult where
  | fetchErr (msg : String)
  | readErr (status : Nat) (msg : String)
  | response (status : Nat) (body : String)
deriving Repr, DecidableEq

/-- `checkFragmentOnPage` from tester.go: a bare `#` is Live without any
fetch; otherwise fetch the base page, mapping a fetch error, a status ≥ 400,
or a body-read error to Dead with the corresponding message, and otherwise
report Live exactly when the body contains one of the three literal
`id=...` patterns for the fragment text. -/
def checkFragmentOnPage (fetch : String → FetchResult) (fragment basePage : String) :
    CacheEntry :=
  let targetId := goTrimLead fragment "#"
  if targetId = "" then
    { URL := fragment, Status := CacheEntryStatus.Live, Error := "" }
  else
    match fetch basePage with
    | FetchResult.fetchErr m =>
      { URL := fragment, Status := CacheEntryStatus.Dead,
        Error := "Could not fetch base page to check fragment: " ++ m }
    | FetchResult.readErr st m =>
      if st ≥ 400 then
        { URL := fragment, Status := CacheEntryStatus.Dead,
          Error := "Base page returned HTTP " ++ toString st }
      else
        { URL := fragment, Status := CacheEntryStatus.Dead,
          Error := "Could not read base page: " ++ m }
    | FetchResult.response st body =>
      if st ≥ 400 then
        { URL := fragment, Status := CacheEntryStatus.Dead,
          Error := "Base page returned HTTP " ++ toString st }
      else
        if (["id=\"" ++ targetId ++ "\"", "id=" ++ apos ++ targetId ++ apos,
             "id=" ++ targetId]).any (fun pat => goContains body pat) then
          { URL := fragment, Status := CacheEntryStatus.Live, Error := "" }
        else
          { URL := fragment, Status := CacheEntryStatus.Dead,
            Error := "Element with id=" ++ apos ++ targetId ++ apos ++ " not found on page" }

/-- The spec's words for fragment liveness (§4.6.1 / P6): the GET of the base
page succeeds with status < 400 and the body contains one of the literal
substrings `id="F"`, `id='F'`, `id=F`.  Stated separately from the code model
to compare the two. -/
def specFragmentLive (fetch : String → FetchResult) (targetId basePage : String) : Bool :=
  match fetch basePage with
  | FetchResult.response st body =>
    decide (st < 400) &&
      (["id=\"" ++ targetId ++ "\"", "id=" ++ apos ++ targetId ++ apos,
        "id=" ++ targetId]).any (fun pat => goContains body pat)
  | _ => false

/-! ### Walker — internal/walker/walker.go -/

/-- `WalkerRequest` (interface.go): the URL to process and the referring base. -/
structure WalkerRequest where
  Path : String
  BasePath : String
deriving Repr, DecidableEq

/-- `bannedPaths` from walker.go. -/
def bannedPaths : List String := ["/cdn-cgi/", "/wp-admin/", "/wp-login.php"]

/-- The banned-substring check in `Walk`. -/
def isBannedPath (path : String) : Bool :=
  bannedPaths.any (fun b => goContains path b)

/-- The `allowed` closure inside `IsSameDomain`: empty path or trailing `/` is
allowed; a last segment without a dot is allowed; a last segment whose last
dot is followed by at least one character is allowed; otherwise not. -/
def allowed (u : GoUrl) : Bool :=
  let p := u.path
  if p = "" || goEnds p "/" then true
  else
    let last := (listSplitOnChar p.data '/').getLastD []
    if ¬ (last.any (fun c => c = '.')) then true
    else
      match lastIdxOfChar last '.' with
      | some idx => decide (idx < last.length - 1)
      | none => false

/-- `IsSameDomain` from walker.go. -/
def IsSameDomain (target baseUrl : String) : Bool :=
  if goStarts target "#" then false
  else
    match goUrlParse target with
    | none => false
    | some parsedTarget =>
      if ¬ allowed parsedTarget then false
      else if parsedTarget.host = "" then true
      else
        match goUrlParse baseUrl with
        | none => false
        | some parsedBase => parsedTarget.host = parsedBase.host

/-- The relative-URL resolution in `processFoundUrl`: when the candidate
parses with an empty host and the request has a base path that parses, the
candidate is resolved against it und re-serialised. -/
def resolveFound (matchedUrl basePath : String) : String :=
  match goUrlParse matchedUrl with
  | none => matchedUrl
  | some parsed =>
    if parsed.host = "" ∧ basePath ≠ "" then
      match goUrlParse basePath with
      | some base => (resolveReference base parsed).render
      | none => matchedUrl
    else matchedUrl

/-- Where `processFoundUrl` sends one discovered candidate. -/
inductive RouteAction where
  | toWalkQueue (req : WalkerRequest)
  | publishLive (url : String)
  | toTestQueue (req : WalkerRequest)
deriving Repr, DecidableEq

/-- `processFoundUrl` from walker.go.  Same-domain-and-HTML-likely candidates
are resolved and go to the walk-queue, the base path carried over unchanged.
Otherwise, a candidate beginning with `#` whose enclosing body matches the
pattern `id="` + candidate + `"` (note: the candidate INCLUDING its leading
`#`; the Go code passes this to `regexp.Match`, which for the metacharacter-free
fragments considered here is plain substring search) is published Live under
`request.path + candidate`; all remaining candidates go to the test-queue with
the base path carried over unchanged. -/
def processFoundUrl (targetBaseUrl matchedUrl : String) (toTest : WalkerRequest)
    (bodyText : String) : RouteAction :=
  if IsSameDomain matchedUrl targetBaseUrl then
    RouteAction.toWalkQueue
      { Path := resolveFound matchedUrl toTest.BasePath, BasePath := toTest.BasePath }
  else
    if goStarts matchedUrl "#" ∧ goContains bodyText ("id=\"" ++ matchedUrl ++ "\"") then
      RouteAction.publishLive (toTest.Path ++ matchedUrl)
    else
      RouteAction.toTestQueue { Path := matchedUrl, BasePath := toTest.BasePath }

/-- The outcome of the entry phase of `Walk` (before any HTTP work): lose the
claim race and return; win the claim and drop a banned path (no result is ever
recorded for it); or win the claim and proceed to fetch. -/
inductive WalkPhase where
  | skipAlreadyClaimed
  | droppedBanned
  | proceedToFetch
deriving Repr, DecidableEq

/-- The entry phase of `Walk` from walker.go: `TryClaim`, then the banned-path
check.  Returns the phase reached and the store state it leaves behind. -/
def walkEntry (st : CacheState) (path : String) : WalkPhase × CacheState :=
  if (TryClaim st path).fst then
    if isBannedPath path then (WalkPhase.droppedBanned, (TryClaim st path).snd)
    else (WalkPhase.proceedToFetch, (TryClaim st path).snd)
  else (WalkPhase.skipAlreadyClaimed, (TryClaim st path).snd)

/-! ### Worker pool — internal/workers/workers.go -/

/-- What `GetDomainLimiter` hands out, as configuration data: the shared
default limiter `rate.NewLimiter(rate.Inf, 0)` (infinite rate: every `Allow`
succeeds), or a fresh `rate.NewLimiter(rate.Limit(rateLimitValue), 5)`. -/
inductive LimiterSpec where
  | unlimited
  | bucket (r : Int) (burst : Nat)
deriving Repr, DecidableEq

/-- `GetDomainLimiter` from workers.go: the default (infinite) limiter exactly
when the configured rate is 0; otherwise a per-domain token bucket with burst 5
and the configured rate — including when that rate is negative.  The registry
caches one limiter per domain; the spec of the limiter handed out depends only
on the configured rate, which is what is modelled. -/
def GetDomainLimiter (rateLimitValue : Int) : LimiterSpec :=
  if rateLimitValue = 0 then LimiterSpec.unlimited
  else LimiterSpec.bucket rateLimitValue 5

/-- Modelled from golang.org/x/time/rate: whether the `n`-th of a burst of
back-to-back `Allow` calls at one instant succeeds.  An infinite-rate limiter
always allows; a finite-rate bucket starts full with `burst` tokens and gains
none in zero elapsed time, so exactly the first `burst` calls succeed. -/
def allowsImmediately (ls : LimiterSpec) (n : Nat) : Bool :=
  match ls with
  | LimiterSpec.unlimited => true
  | LimiterSpec.bucket _ burst => n < burst

/-- The three channels owned by the pool. -/
inductive PoolChannel where
  | walkQueue
  | testQueue
  | resultChannel
deriving Repr, DecidableEq

/-- The close sequence at the end of `WaitAndClose` (workers.go):
`close(wp.toTestChan); close(wp.toWalkChan); close(wp.resultsChan)`. -/
def closeOrder : List PoolChannel :=
  [PoolChannel.testQueue, PoolChannel.walkQueue, PoolChannel.resultChannel]

/-- The 100 ms pause between the two idle checks in `WaitAndClose`. -/
def idleRecheckDelayMs : Nat := 100

/-- The 10 ms pause between polling rounds in `WaitAndClose`. -/
def pollDelayMs : Nat := 10

/-- The `WaitAndClose` polling loop over a trace of `IsIdle` observations
(`IsIdle`: active walkers = 0, active testers = 0 and all three channels
empty).  Each round observes once; if idle, it sleeps 100 ms, observes again
and breaks only when that second observation is idle too; otherwise it sleeps
10 ms and polls again.  Returns the number of observations consumed when the
loop breaks, `none` when the (finite) trace runs out. -/
def waitLoop : List Bool → Option Nat
  | true :: true :: _ => some 2
  | true :: false :: rest => (waitLoop rest).map (· + 2)
  | false :: rest => (waitLoop rest).map (· + 1)
  | _ => none

/-- `SendURLs` from workers.go: each seed URL is enqueued on the walk-queue
with `BasePath` set to the pool's base URL (the configured target). -/
def sendURL (baseUrl url : String) : WalkerRequest :=
  { Path := url, BasePath := baseUrl }

/-- All requests that can ever sit on the walk-queue or the test-queue of a
run whose seed is `seed` (with `targetBaseUrl = seed`, as wired in
`app.New`/`app.Run`): the seed request sent by `SendURLs`, plus everything
either walker enqueue site of `processFoundUrl` emits for a request already
enqueued.  Testers enqueue nothing. -/
inductive EnqueuedReq (seed : String) : WalkerRequest → Prop where
  | seedSent : EnqueuedReq seed (sendURL seed seed)
  | walkRouted (r r' : WalkerRequest) (m body : String) :
      EnqueuedReq seed r →
      processFoundUrl seed m r body = RouteAction.toWalkQueue r' →
      EnqueuedReq seed r'
  | testRouted (r r' : WalkerRequest) (m body : String) :
      EnqueuedReq seed r →
      processFoundUrl seed m r body = RouteAction.toTestQueue r' →
      EnqueuedReq seed r'

/-- A concrete network for exercising the HTTPS→HTTP fallback: every
`http://` URL answers 200, everything else fails the TLS round trip. -/
def netHttpOnly : String → PingResult := fun u =>
  if goStarts u "http://" then PingResult.response 200
  else PingResult.transportErr false "tls handshake failure"

/-- A concrete base page for exercising the fragment check. -/
def fetchPageWithIdX : String → FetchResult := fun _ =>
  FetchResult.response 200 ("<a id=\"x\">y</a>")

lemma any_filter_le (l : List (String × CacheEntry)) (p q : String × CacheEntry → Bool)
    (h : (l.filter p).any q = true) : l.any q = true := by
  rcases List.any_eq_true.mp h with ⟨x, hx, hq⟩
  exact List.any_eq_true.mpr ⟨x, List.mem_of_mem_filter hx, hq⟩

lemma exclusive_tryClaim (st : CacheState) (url : String)
    (h : exclusiveState st = true) : exclusiveState (TryClaim st url).snd = true := by
  unfold TryClaim
  by_cases h1 : HasResult st url
  · simp [h1, h]
  · by_cases h2 : IsClaimed st url
    · simp [h1, h2, h]
    · have h1' : HasResult st url = false := by simpa using h1
      simp only [h1, h2, Bool.false_eq_true, if_false]
      unfold exclusiveState at h ⊢
      rw [List.all_cons]
      have hfst : (!(HasResult { st with ClaimedURLs := url :: st.ClaimedURLs } url)) = true := by
        show (!(HasResult st url)) = true
        simp [h1']
      rw [hfst]
      simpa using h

lemma exclusive_put (st : CacheState) (e : CacheEntry)
    (h : exclusiveState st = true) : exclusiveState (putEntry st e) = true := by
  unfold exclusiveState at h ⊢
  rw [List.all_eq_true] at h ⊢
  intro u hu
  have hu' : u ∈ st.ClaimedURLs := List.mem_of_mem_filter hu
  have hne : u ≠ e.URL := by
    have hfil := List.of_mem_filter hu
    simp only [Bool.not_eq_true', decide_eq_false_iff_not] at hfil
    exact hfil
  have hold : HasResult st u = false := by simpa using h u hu'
  show (!(HasResult (putEntry st e) u)) = true
  rw [Bool.not_eq_true']
  unfold HasResult at hold
  unfold HasResult putEntry
  simp only [List.any_cons]
  rw [Bool.or_eq_false_iff]
  constructor
  · simp only [decide_eq_false_iff_not]
    exact fun hc => hne hc.symm
  · rw [Bool.eq_false_iff]
    intro hc
    have := any_filter_le _ _ _ hc
    rw [hold] at this
    exact Bool.false_ne_true this

lemma exclusive_apply (st : CacheState) (op : CacheOp)
    (h : exclusiveState st = true) : exclusiveState (applyOp st op) = true := by
  cases op with
  | tryClaimOp url => exact exclusive_tryClaim st url h
  | putOp e => exact exclusive_put st e h

lemma exclusive_foldl (ops : List CacheOp) :
    ∀ st, exclusiveState st = true → exclusiveState (ops.foldl applyOp st) = true := by
  induction ops with
  | nil => intro st h; simpa using h
  | cons op rest ih =>
    intro st h
    exact ih (applyOp st op) (exclusive_apply st op h)

/-- C5: for every sequence of `tryClaim`/`put` operations, every URL is in at
most one of the claimed-set and the result map; `tryClaim` returns false
exactly when the URL is already resolved or already claimed (and adds the URL
to the claimed-set precisely when it returns true); `put` installs the entry in
the result map and clears the claim in the same critical section. -/
theorem c5_claim_put_exclusive :
    (∀ ops : List CacheOp, exclusiveState (runOps ops) = true)
    ∧ (∀ st url, (TryClaim st url).fst = !(HasResult st url || IsClaimed st url))
    ∧ (∀ st url,
        IsClaimed (TryClaim st url).snd url
          = (IsClaimed st url || !(HasResult st url)))
    ∧ (∀ st e, GetResult (putEntry st e) e.URL = some e
        ∧ IsClaimed (putEntry st e) e.URL = false) := by
  refine ⟨?_, ?_, ?_, ?_⟩
  · intro ops
    exact exclusive_foldl ops emptyCache (by decide)
  · intro st url
    unfold TryClaim
    by_cases h1 : HasResult st url
    · simp [h1]
    · by_cases h2 : IsClaimed st url
      · simp [h1, h2]
      · simp [h1, h2]
  · intro st url
    unfold TryClaim
    by_cases h1 : HasResult st url
    · simp [h1]
    · by_cases h2 : IsClaimed st url
      · have h1' : HasResult st url = false := by simpa using h1
        simp [h1', h2]
      · have h1' : HasResult st url = false := by simpa using h1
        have h2' : IsClaimed st url = false := by simpa using h2
        simp only [h1', h2', Bool.false_eq_true, if_false]
        show IsClaimed { st with ClaimedURLs := url :: st.ClaimedURLs } url = _
        unfold IsClaimed
        simp
  · intro st e
    constructor
    · simp [putEntry, GetResult]
    · unfold putEntry IsClaimed
      rw [Bool.eq_false_iff]
      intro hc
      rcases List.any_eq_true.mp hc with ⟨u, hu, he⟩
      have hfil := List.of_mem_filter hu
      rw [decide_eq_true_eq] at he
      simp [he] at hfil

/-! ### C1 — bot-status classification -/

/-- C1 claims that responses with status 403, 429 or 999 are published as
BotBlocked (`Bot`) and excluded from the failure counts and the exit code.
The store side is true: `HasFailures`/`GetFailureCount` ignore `Bot`.  But no
code path in the tester (or anywhere else) ever produces `Bot`: `PingUrl`
turns every status ≥ 400 into the generic `HTTP n` error, which `Test`
classifies as Dead, counted as a failure.  This theorem evaluates the embedded
tester at statuses 403, 429 and 999 and the store on the resulting entries. -/
theorem c1_bot_statuses_recorded_dead :
    testerEntry (fun _ => PingResult.response 403) "https://l.tld/u"
      = { URL := "https://l.tld/u", Status := CacheEntryStatus.Dead, Error := "HTTP 403" }
    ∧ testerEntry (fun _ => PingResult.response 429) "https://l.tld/u"
      = { URL := "https://l.tld/u", Status := CacheEntryStatus.Dead, Error := "HTTP 429" }
    ∧ testerEntry (fun _ => PingResult.response 999) "https://l.tld/u"
      = { URL := "https://l.tld/u", Status := CacheEntryStatus.Dead, Error := "HTTP 999" }
    ∧ exitNonzero
        (putEntry emptyCache (testerEntry (fun _ => PingResult.response 999) "https://l.tld/u"))
      = true
    ∧ HasFailures
        (putEntry emptyCache { URL := "https://l.tld/u", Status := CacheEntryStatus.Bot, Error := "" })
      = false
    ∧ GetFailureCount
        (putEntry emptyCache { URL := "https://l.tld/u", Status := CacheEntryStatus.Bot, Error := "" })
      = (0, 0) := by
  decide

/-! ### C2 — HTTPS→HTTP fallback -/

lemma isHttpsUrl_lit_tail (t : List Char) :
    isHttpsUrl (String.mk ('h' :: 't' :: 't' :: 'p' :: 's' :: ':' :: '/' :: '/' ::t)) = true := by
  simp [isHttpsUrl, goUrlParse, listSplitFirst, getSchemeGo, isSchemeTailChar, parseRest,
    listTakeUntil, listLower, List.isPrefixOf]

lemma replaceFirst_https_lit_tail (t : List Char) :
    replaceFirst (String.mk ('h' :: 't' :: 't' :: 'p' :: 's' :: ':' :: '/' :: '/' ::t)) "https://" "http://"
      = String.mk ('h' :: 't' :: 't' :: 'p' :: ':' :: '/' :: '/' ::t) := by
  have h8 : "https://".data = ['h','t','t','p','s',':','/','/'] := rfl
  have h7 : "http://".data = ['h','t','t','p',':','/','/'] := rfl
  simp [replaceFirst, listIdxOfSub, h8, h7, List.isPrefixOf]

lemma https_lit_decomp (path : String) (h : goStarts path "https://" = true) :
    ∃ t, path = String.mk ('h' :: 't' :: 't' :: 'p' :: 's' :: ':' :: '/' :: '/' ::t)
      ∧ path.data.drop 8 = t := by
  obtain ⟨d⟩ := path
  unfold goStarts at h
  obtain ⟨t, ht⟩ := List.isPrefixOf_iff_prefix.mp h
  have h8 : "https://".data = ['h','t','t','p','s',':','/','/'] := rfl
  rw [h8] at ht
  have ht' : ['h','t','t','p','s',':','/','/'] ++ t = d := ht
  subst ht'
  exact ⟨t, rfl, rfl⟩

/-- C2: for every network behaviour and URL handled by the fallback of the
tester: success as-is returns the URL unchanged with no error and pings only
once; on failure of a URL whose parsed scheme is https, exactly one retry is
issued for the URL with `https://` replaced by `http://`, whose success
returns that http URL with no error and whose failure returns the ORIGINAL
URL with the ORIGINAL error; on failure of a non-https URL no retry happens.
For a URL literally starting with `https://`, the retried URL is exactly the
scheme-replaced variant. -/
theorem c2_ping_fallback (net : String → PingResult) (path : String) :
    (PingUrl net path = none →
       PingUrlWithFallback net path = (path, none) ∧ pingAttempts net path = [path])
    ∧ (∀ e, PingUrl net path = some e → isHttpsUrl path = true →
        pingAttempts net path = [path, replaceFirst path "https://" "http://"]
        ∧ (PingUrl net (replaceFirst path "https://" "http://") = none →
            PingUrlWithFallback net path = (replaceFirst path "https://" "http://", none))
        ∧ (∀ e2, PingUrl net (replaceFirst path "https://" "http://") = some e2 →
            PingUrlWithFallback net path = (path, some e)))
    ∧ (∀ e, PingUrl net path = some e → isHttpsUrl path = false →
        pingAttempts net path = [path] ∧ PingUrlWithFallback net path = (path, some e))
    ∧ (goStarts path "https://" = true →
        isHttpsUrl path = true
        ∧ replaceFirst path "https://" "http://"
            = String.mk ("http://".data ++ path.data.drop 8)) := by
  refine ⟨?_, ?_, ?_, ?_⟩
  · intro h
    exact ⟨by simp [PingUrlWithFallback, h], by simp [pingAttempts, h]⟩
  · intro e he hs
    refine ⟨by simp [pingAttempts, he, hs], ?_, ?_⟩
    · intro h2
      simp [PingUrlWithFallback, he, hs, h2]
    · intro e2 h2
      simp [PingUrlWithFallback, he, hs, h2]
  · intro e he hs
    exact ⟨by simp [pingAttempts, he, hs], by simp [PingUrlWithFallback, he, hs]⟩
  · intro h
    obtain ⟨t, hp, hd⟩ := https_lit_decomp path h
    subst hp
    refine ⟨isHttpsUrl_lit_tail t, ?_⟩
    rw [hd]
    have h7 : "http://".data = ['h','t','t','p',':','/','/'] := rfl
    rw [h7]
    exact replaceFirst_https_lit_tail t

/-- Witness for C2 at a concrete network and URL: the TLS-failing
`https://site.tld` is retried as `http://site.tld`, which answers 200, so the
fallback returns the http variant with no error after exactly two pings. -/
theorem c2_ping_fallback_witness :
    PingUrlWithFallback netHttpOnly "https://site.tld" = ("http://site.tld", none)
    ∧ pingAttempts netHttpOnly "https://site.tld" = ["https://site.tld", "http://site.tld"]
    ∧ isHttpsUrl "https://site.tld" = true := by
  have h := c2_ping_fallback netHttpOnly "https://site.tld"
  have he : PingUrl netHttpOnly "https://site.tld"
      = some { isTimeout := false, httpStatus := none, msg := "tls handshake failure" } := by
    decide
  have hs : isHttpsUrl "https://site.tld" = true := by decide
  have hrep : replaceFirst "https://site.tld" "https://" "http://" = "http://site.tld" := by
    decide
  have h2 := h.2.1 _ he hs
  rw [hrep] at h2
  refine ⟨h2.2.1 (by decide), ?_, hs⟩
  have ha := h2.1
  rw [show pingAttempts netHttpOnly "https://site.tld"
      = [("https://site.tld" : String), replaceFirst "https://site.tld" "https://" "http://"]
    from ha, hrep]

/-! ### C3 — extension filtering in the same-host-HTML-likely test -/

/-- C3 claims that a candidate whose last path segment has a non-empty
extension other than html/htm (for example `/a.jpg`) fails `IsSameDomain` and
is routed to the test-queue.  The comment above the `allowed` closure in
walker.go states the same intent ("Only allow URLs ending with .html, .htm,
or with no extension at all"), but the closure returns true for ANY non-empty
extension (its final branch accepts every last segment whose last dot is
followed by at least one character), so `/a.jpg` passes and is routed to the
walk-queue.  This theorem evaluates the embedded code at the failing input. -/
theorem c3_jpg_routed_to_walk_queue :
    IsSameDomain "/a.jpg" "https://site.tld" = true
    ∧ IsSameDomain "https://site.tld/b.jpg" "https://site.tld" = true
    ∧ IsSameDomain "/a." "https://site.tld" = false
    ∧ processFoundUrl "https://site.tld" "/a.jpg"
        { Path := "https://site.tld", BasePath := "https://site.tld" } "body"
      = RouteAction.toWalkQueue
          { Path := "https://site.tld/a.jpg", BasePath := "https://site.tld" } := by
  decide

/-! ### C4 — in-page fragment short-circuit in the walker -/

/-- C4 claims that a candidate `#X` is published Live (keyed
`request.path + #X`) when the current body contains `id="X"`.  The walker
instead searches the body for `id="` + candidate + `"` with the candidate
still carrying its leading `#`, i.e. for `id="#X"`: a body containing the
anchor target `id="top"` does NOT trigger the short-circuit (the candidate
goes to the test-queue), while a body containing the id text `#top` does.
This theorem evaluates the embedded `processFoundUrl` at both bodies. -/
theorem c4_fragment_check_requires_hash_in_id :
    processFoundUrl "https://site.tld" "#top"
        { Path := "https://site.tld", BasePath := "https://site.tld" }
        "<div id=\"top\">x</div>"
      = RouteAction.toTestQueue { Path := "#top", BasePath := "https://site.tld" }
    ∧ processFoundUrl "https://site.tld" "#top"
        { Path := "https://site.tld", BasePath := "https://site.tld" }
        "<div id=\"#top\">x</div>"
      = RouteAction.publishLive "https://site.tld#top" := by
  decide

/-! ### C6 — banned URLs and the claimed-set at shutdown -/

/-- C6 counterexample: the claim asserts the claimed-set is empty at shutdown
because every successfully claimed URL eventually receives a result — even
banned ones, for which no result is recorded.  Those two parts contradict each
other on the code: a walker claims the URL FIRST and only then drops it for a
banned substring, publishing nothing, so nothing ever clears the claim.  In a
run whose only request is the banned `https://site.tld/wp-admin/index.php`
(no results are published, so the store after draining the result channel is
exactly the state below), the claimed-set at shutdown is nonempty. -/
theorem c6_counterexample_banned_claim_leaks :
    (walkEntry emptyCache "https://site.tld/wp-admin/index.php").fst
      = WalkPhase.droppedBanned
    ∧ (walkEntry emptyCache "https://site.tld/wp-admin/index.php").snd.ClaimedURLs
      = ["https://site.tld/wp-admin/index.php"]
    ∧ (walkEntry emptyCache "https://site.tld/wp-admin/index.php").snd.ClaimedURLs.isEmpty
      = false := by
  decide

/-- C6 amended: a URL whose path contains a banned substring and whose claim
succeeds is dropped with no result recorded, and it REMAINS in the claimed-set
(so the claimed-set at shutdown holds exactly the claimed URLs for which no
result was ever inserted; only `putEntry` clears a claim). -/
theorem c6_banned_urls_stay_claimed (st : CacheState) (path : String)
    (hban : isBannedPath path = true) (hclaim : (TryClaim st path).fst = true) :
    (walkEntry st path).fst = WalkPhase.droppedBanned
    ∧ IsClaimed (walkEntry st path).snd path = true := by
  unfold walkEntry
  rw [hclaim]
  unfold TryClaim at hclaim ⊢
  by_cases h1 : HasResult st path
  · rw [if_pos h1] at hclaim
    exact absurd hclaim (by simp)
  · rw [if_neg h1] at hclaim ⊢
    by_cases h2 : IsClaimed st path
    · rw [if_pos h2] at hclaim
      exact absurd hclaim (by simp)
    · rw [if_neg h2]
      constructor
      · simp [hban]
      · simp [hban, IsClaimed]

/-- Witness for C6 amended at a concrete banned URL and the empty store. -/
theorem c6_banned_urls_stay_claimed_witness :
    (walkEntry emptyCache "https://a.tld/wp-login.php").fst = WalkPhase.droppedBanned
    ∧ IsClaimed (walkEntry emptyCache "https://a.tld/wp-login.php").snd
        "https://a.tld/wp-login.php" = true :=
  c6_banned_urls_stay_claimed emptyCache "https://a.tld/wp-login.php"
    (by decide) (by decide)


/-! ### C7 — quiescence detection and channel close order -/

/-- C7 counterexample: the claim asserts a close order of walk-queue, then
test-queue, then result-channel; `WaitAndClose` closes the TEST-queue first
(`close(wp.toTestChan)` precedes `close(wp.toWalkChan)`). -/
theorem c7_counterexample_close_order :
    decide (closeOrder
        = [PoolChannel.walkQueue, PoolChannel.testQueue, PoolChannel.resultChannel])
      = false := by
  decide

lemma waitLoop_two_idle : ∀ (obs : List Bool) (n : Nat), waitLoop obs = some n →
    ∃ i, obs.getD i false = true ∧ obs.getD (i + 1) false = true ∧ n = i + 2
  | true :: true :: _, n, h => by
    have hn : n = 2 := by simpa [waitLoop] using h.symm
    exact ⟨0, by simp, by simp, by omega⟩
  | true :: false :: rest, n, h => by
    rw [show waitLoop (true :: false :: rest) = (waitLoop rest).map (· + 2) from rfl] at h
    obtain ⟨m, hm, hfm⟩ := Option.map_eq_some'.mp h
    obtain ⟨i, h1, h2, h3⟩ := waitLoop_two_idle rest m hm
    refine ⟨i + 2, ?_, ?_, by omega⟩
    · simpa using h1
    · simpa using h2
  | false :: rest, n, h => by
    rw [show waitLoop (false :: rest) = (waitLoop rest).map (· + 1) from rfl] at h
    obtain ⟨m, hm, hfm⟩ := Option.map_eq_some'.mp h
    obtain ⟨i, h1, h2, h3⟩ := waitLoop_two_idle rest m hm
    refine ⟨i + 1, ?_, ?_, by omega⟩
    · simpa using h1
    · simpa using h2
  | [], n, h => by simp [waitLoop] at h
  | [true], n, h => by simp [waitLoop] at h

/-- C7 amended: whenever the `WaitAndClose` polling loop terminates on a trace
of `IsIdle` observations, it does so right after two consecutive idle
observations (taken 100 ms apart, with a 10 ms poll pause otherwise), and it
then closes the channels in the order test-queue, walk-queue, result-channel
(each worker loop returns when its input channel is closed, and the store
consumer returns when the result channel is closed). -/
theorem c7_two_consecutive_idle_then_close (obs : List Bool) (n : Nat)
    (h : waitLoop obs = some n) :
    (∃ i, obs.getD i false = true ∧ obs.getD (i + 1) false = true ∧ n = i + 2)
    ∧ closeOrder = [PoolChannel.testQueue, PoolChannel.walkQueue, PoolChannel.resultChannel]
    ∧ idleRecheckDelayMs = 100 ∧ pollDelayMs = 10 :=
  ⟨waitLoop_two_idle obs n h, rfl, rfl, rfl⟩

/-- Witness for C7 amended at a concrete observation trace: not idle once,
then idle twice; the loop stops after the third observation. -/
theorem c7_two_consecutive_idle_then_close_witness :
    (∃ i, [false, true, true].getD i false = true
      ∧ [false, true, true].getD (i + 1) false = true ∧ 3 = i + 2)
    ∧ closeOrder = [PoolChannel.testQueue, PoolChannel.walkQueue, PoolChannel.resultChannel]
    ∧ idleRecheckDelayMs = 100 ∧ pollDelayMs = 10 :=
  c7_two_consecutive_idle_then_close [false, true, true] 3 (by decide)

/-! ### C8 — per-host rate limiter construction -/

/-- C8 counterexample: the claim asserts every acquire succeeds immediately
whenever the configured rate is ≤ 0.  `GetDomainLimiter` special-cases only
`rateLimitValue == 0`: a negative configured rate (for example −1) builds an
ordinary bucket with burst 5 and that negative refill rate, whose sixth
back-to-back acquire already fails. -/
theorem c8_counterexample_negative_rate :
    decide (GetDomainLimiter (-1) = LimiterSpec.unlimited) = false
    ∧ GetDomainLimiter (-1) = LimiterSpec.bucket (-1) 5
    ∧ allowsImmediately (GetDomainLimiter (-1)) 5 = false := by
  decide

/-- C8 amended: the limiter handed out is the infinite no-throttling limiter
exactly for configured rate 0 (every immediate acquire succeeds); for every
other configured rate r — positive or negative — it is a token bucket with
burst capacity 5 and refill rate r. -/
theorem c8_rate_zero_unlimited_else_bucket (r : Int) :
    (r = 0 → GetDomainLimiter r = LimiterSpec.unlimited
      ∧ ∀ n, allowsImmediately (GetDomainLimiter r) n = true)
    ∧ (r ≠ 0 → GetDomainLimiter r = LimiterSpec.bucket r 5) := by
  constructor
  · rintro rfl
    exact ⟨by simp [GetDomainLimiter], fun n => by simp [GetDomainLimiter, allowsImmediately]⟩
  · intro h
    simp [GetDomainLimiter, h]

/-- Witness for C8 amended at rates 0 and 20 (the default). -/
theorem c8_rate_zero_unlimited_else_bucket_witness :
    (GetDomainLimiter 0 = LimiterSpec.unlimited
      ∧ allowsImmediately (GetDomainLimiter 0) 7 = true)
    ∧ GetDomainLimiter 20 = LimiterSpec.bucket 20 5 := by
  have h0 := (c8_rate_zero_unlimited_else_bucket 0).1 rfl
  have h20 := (c8_rate_zero_unlimited_else_bucket 20).2 (by decide)
  exact ⟨⟨h0.1, h0.2 7⟩, h20⟩

/-! ### C9 — fragment liveness in the tester -/

/-- C9 counterexample: the claim asserts Dead on ANY fetch error, for every
fragment `#F`.  For the bare fragment `#` (empty F) the code publishes Live
without fetching the base page at all, so even with a failing network the
recorded status is Live, not Dead. -/
theorem c9_counterexample_bare_hash_live :
    checkFragmentOnPage (fun _ => FetchResult.fetchErr "connection refused") "#" "https://b.tld"
      = { URL := "#", Status := CacheEntryStatus.Live, Error := "" }
    ∧ specFragmentLive (fun _ => FetchResult.fetchErr "connection refused") "" "https://b.tld"
      = false := by
  decide

lemma append_ne_empty_left (s t : String) (h : s.data ≠ []) : ¬ (s ++ t = "") := by
  intro hc
  have hdata : (s ++ t).data = [] := by rw [hc]
  rw [String.data_append] at hdata
  exact h (List.append_eq_nil.mp hdata).1

lemma data_ne_nil_append (a b : String) (h : a.data ≠ []) : (a ++ b).data ≠ [] := by
  rw [String.data_append]
  intro hc
  exact h (List.append_eq_nil.mp hc).1

/-- C9 amended: for every fragment request whose fragment text is non-empty
(the bare `#` is Live unconditionally, without a fetch), the recorded status
is Live exactly when the GET of the base page yields a readable response with
status < 400 whose body contains one of the literal patterns `id="F"`,
`id=`‑apos‑`F`‑apos, or `id=F`; in every other case (fetch error, status
≥ 400, body-read error, or no matching id) the status is Dead with a
non-empty descriptive error. -/
theorem c9_fragment_live_iff (fetch : String → FetchResult) (fragment basePage : String)
    (hne : goTrimLead fragment "#" ≠ "") :
    ((checkFragmentOnPage fetch fragment basePage).Status = CacheEntryStatus.Live
      ↔ specFragmentLive fetch (goTrimLead fragment "#") basePage = true)
    ∧ ((checkFragmentOnPage fetch fragment basePage).Status ≠ CacheEntryStatus.Live →
        (checkFragmentOnPage fetch fragment basePage).Status = CacheEntryStatus.Dead
        ∧ (checkFragmentOnPage fetch fragment basePage).Error ≠ "") := by
  unfold checkFragmentOnPage specFragmentLive
  cases hfetch : fetch basePage with
  | fetchErr m =>
    simp only [hne, if_neg hne]
    refine ⟨by simp, fun _ => ⟨by simp, ?_⟩⟩
    show ¬ ("Could not fetch base page to check fragment: " ++ m = "")
    exact append_ne_empty_left _ _ (by decide)
  | readErr st m =>
    by_cases h4 : st ≥ 400
    · simp only [hne, if_neg hne, if_pos h4]
      refine ⟨by simp, fun _ => ⟨by simp, ?_⟩⟩
      show ¬ ("Base page returned HTTP " ++ toString st = "")
      exact append_ne_empty_left _ _ (by decide)
    · simp only [hne, if_neg hne, if_neg h4]
      refine ⟨by simp, fun _ => ⟨by simp, ?_⟩⟩
      show ¬ ("Could not read base page: " ++ m = "")
      exact append_ne_empty_left _ _ (by decide)
  | response st body =>
    by_cases h4 : st ≥ 400
    · simp only [hne, if_neg hne, if_pos h4]
      refine ⟨⟨by simp, fun hc => ?_⟩, fun _ => ⟨by simp, ?_⟩⟩
      · rw [Bool.and_eq_true, decide_eq_true_eq] at hc
        omega
      · show ¬ ("Base page returned HTTP " ++ toString st = "")
        exact append_ne_empty_left _ _ (by decide)
    · have hlt : st < 400 := by omega
      by_cases hpat : (["id=\"" ++ goTrimLead fragment "#" ++ "\"",
          "id=" ++ apos ++ goTrimLead fragment "#" ++ apos,
          "id=" ++ goTrimLead fragment "#"]).any (fun pat => goContains body pat) = true
      · simp only [hne, if_neg hne, if_neg h4, hpat, if_pos]
        refine ⟨by simp [hlt, hpat], fun hc => absurd (by simp) hc⟩
      · simp only [hne, if_neg hne, if_neg h4, if_neg hpat]
        refine ⟨by simp [Bool.eq_false_iff.mpr hpat], fun _ => ⟨by simp, ?_⟩⟩
        show ¬ ("Element with id=" ++ apos ++ goTrimLead fragment "#" ++ apos
            ++ " not found on page" = "")
        apply append_ne_empty_left
        apply data_ne_nil_append
        apply data_ne_nil_append
        apply data_ne_nil_append
        decide

/-- Witness for C9 amended: fragment `#x` against a 200 page containing
`id="x"` is Live. -/
theorem c9_fragment_live_iff_witness :
    (checkFragmentOnPage fetchPageWithIdX "#x" "https://b.tld").Status
      = CacheEntryStatus.Live := by
  have h := c9_fragment_live_iff fetchPageWithIdX "#x" "https://b.tld" (by decide)
  exact h.1.mpr (by decide)

/-! ### C10 — base-path propagation -/

lemma processFoundUrl_toWalk_basePath (target m : String) (r : WalkerRequest)
    (body : String) (r' : WalkerRequest)
    (h : processFoundUrl target m r body = RouteAction.toWalkQueue r') :
    r'.BasePath = r.BasePath := by
  unfold processFoundUrl at h
  by_cases h1 : IsSameDomain m target
  · rw [if_pos h1] at h
    obtain rfl := (RouteAction.toWalkQueue.injEq _ _).mp h
    rfl
  · rw [if_neg h1] at h
    by_cases h2 : goStarts m "#" ∧ goContains body ("id=\"" ++ m ++ "\"")
    · rw [if_pos h2] at h
      exact absurd h (by simp)
    · rw [if_neg h2] at h
      exact absurd h (by simp)

lemma processFoundUrl_toTest_basePath (target m : String) (r : WalkerRequest)
    (body : String) (r' : WalkerRequest)
    (h : processFoundUrl target m r body = RouteAction.toTestQueue r') :
    r'.BasePath = r.BasePath := by
  unfold processFoundUrl at h
  by_cases h1 : IsSameDomain m target
  · rw [if_pos h1] at h
    exact absurd h (by simp)
  · rw [if_neg h1] at h
    by_cases h2 : goStarts m "#" ∧ goContains body ("id=\"" ++ m ++ "\"")
    · rw [if_pos h2] at h
      exact absurd h (by simp)
    · rw [if_neg h2] at h
      obtain rfl := (RouteAction.toTestQueue.injEq _ _).mp h
      rfl

/-- C10: every request that can ever sit on the walk-queue or test-queue of a
run seeded (and based) at `seed` carries `BasePath = seed`: `SendURLs`
enqueues the seed with the pool base URL as base path, and both enqueue sites
in `processFoundUrl` copy the incoming request base path unchanged rather
than the URL of the page on which the candidate was found. -/
theorem c10_basePath_always_seed (seed : String) (r : WalkerRequest)
    (h : EnqueuedReq seed r) : r.BasePath = seed := by
  induction h with
  | seedSent => rfl
  | walkRouted r0 r' m body _ hroute ih =>
    rw [processFoundUrl_toWalk_basePath _ _ _ _ _ hroute]
    exact ih
  | testRouted r0 r' m body _ hroute ih =>
    rw [processFoundUrl_toTest_basePath _ _ _ _ _ hroute]
    exact ih

/-- Witness for C10 at the seed request itself. -/
theorem c10_basePath_always_seed_witness :
    (sendURL "https://seed.tld" "https://seed.tld").BasePath = "https://seed.tld" :=
  c10_basePath_always_seed "https://seed.tld" (sendURL "https://seed.tld" "https://seed.tld")
    EnqueuedReq.seedSent
